import Mathlib

/-!
Verification of the screenshot-analyzer classification-and-persistence pipeline.

This file gives a shallow embedding, in Lean 4, of the core functions of the
repository (src/analyzer.py and src/backends/ocr.py) and proves properties of
the natural-language specification against it.

Modelling conventions:
- Python floats are modelled as rationals (ℚ); `round(x, 2)` is modelled by
  `round2`, which implements round-half-to-even as Python's `round` does.
- The external regular-expression engine (`re.findall` over the fixed pattern
  tables) is modelled as an explicit parameter `countMatches : String → String → ℕ`
  giving the number of matches of a pattern source string in a text; the
  pattern tables themselves are embedded verbatim (brace characters inside
  pattern strings are written with \x7b / \x7d escapes).
- Regular expressions that the code relies on structurally — `@(\w+)`,
  `#(\w+)`, whole-word keyword alternations, character-class searches in
  `detect_language` — are implemented concretely over lists of characters
  (the word-character class is modelled by its ASCII fragment).
- SQLite tables are modelled as lists of rows. `INSERT OR REPLACE` with the
  UNIQUE constraint on `filepath` removes any row with the same filepath and
  appends the new row.  For the schema-migration claim a second, column-set
  level model is used, where a table carries its column list and rows are
  association lists from column name to value (absent key = NULL).
- Exceptions are modelled with `Except String`; the external fallible
  operations (image loading, OCR) are parameters returning `Except`.
-/

namespace ScreenshotAnalyzer

/-! ## Basic text helpers -/

/-- The word-character class of Python's `\w` (ASCII fragment):
letters, digits and underscore. -/
def isWordChar (c : Char) : Bool :=
  c.isAlphanum || c == '_'

/-- Scan for `trigger(\w+)` matches (used with `@` for mentions and `#` for
hashtags): at each occurrence of the trigger character followed by at least
one word character, the greedy run of word characters is one match, and
scanning resumes after it (non-overlapping, left to right, as
`re.findall`). -/
def scanTaggedF (trigger : Char) : ℕ → List Char → List String
  | 0, _ => []
  | _, [] => []
  | fuel + 1, c :: rest =>
    if c == trigger then
      if (rest.takeWhile isWordChar).isEmpty then scanTaggedF trigger fuel rest
      else (rest.takeWhile isWordChar).asString ::
        scanTaggedF trigger fuel (rest.dropWhile isWordChar)
    else scanTaggedF trigger fuel rest

/-- As a fuel bound, the input length suffices: every step of the scan
consumes at least one character. -/
def scanTagged (trigger : Char) (cs : List Char) : List String :=
  scanTaggedF trigger cs.length cs

/-- Maximal runs of word characters in a character list.  A whole-word
regular-expression match `\bword\b` of a plain word corresponds exactly to a
maximal word-character run equal to that word. -/
def wordRunsF : ℕ → List Char → List String
  | 0, _ => []
  | _, [] => []
  | fuel + 1, c :: rest =>
    if isWordChar c then
      (c :: rest.takeWhile isWordChar).asString ::
        wordRunsF fuel (rest.dropWhile isWordChar)
    else wordRunsF fuel rest

/-- As a fuel bound, the input length suffices: every step consumes at
least one character. -/
def wordRuns (cs : List Char) : List String :=
  wordRunsF cs.length cs

/-- Split a character list on a separator character (`str.split(sep)` /
the path components of `pathlib`). -/
def splitOnChar (sep : Char) : List Char → List (List Char)
  | [] => [[]]
  | c :: rest =>
    match splitOnChar sep rest with
    | [] => [[]]
    | w :: ws => if c == sep then [] :: w :: ws else (c :: w) :: ws

/-- Model of `str.lower()` (the inputs it is applied to — extensions, pattern
keywords — are ASCII). -/
def toLowerStr (s : String) : String :=
  (s.data.map Char.toLower).asString

/-- Does `needle` occur as a contiguous substring of `hay`
(Python's `needle in hay`)? -/
def containsSub (hay needle : List Char) : Bool :=
  (List.range (hay.length + 1)).any (fun i => needle.isPrefixOf (hay.drop i))

/-! ## Rounding (Python `round(x, 2)`)

Python rounds half to even ("banker's rounding"). -/

/-- Round a rational to the nearest integer, halves to even. -/
def roundHalfToEven (q : ℚ) : ℤ :=
  if q - ⌊q⌋ < 1/2 then ⌊q⌋
  else if 1/2 < q - ⌊q⌋ then ⌊q⌋ + 1
  else if ⌊q⌋ % 2 = 0 then ⌊q⌋ else ⌊q⌋ + 1

/-- Python's `round(q, 2)`. -/
def round2 (q : ℚ) : ℚ :=
  (roundHalfToEven (q * 100) : ℚ) / 100

/-! ## Pattern tables (src/backends/ocr.py, APP_PATTERNS / CONTENT_PATTERNS)

The pattern source strings are carried verbatim as data; they are only ever
passed to the `countMatches` parameter modelling `re.findall` with
`re.IGNORECASE`.  Brace characters are written \x7b / \x7d. -/

def APP_PATTERNS : List (String × List String) :=
  [("twitter",
    ["\\bretweet\\b", "\\btweet\\b", "\\blikes?\\b.*\\bretweets?\\b",
     "\\breplies\\b", "@\\w+.*\\d+[hm]\\b", "\\bfollow\\b.*\\bfollowing\\b"]),
   ("instagram",
    ["\\blikes?\\b", "\\bcomments?\\b", "\\bfollowers?\\b", "\\bfollowing\\b",
     "\\bstory\\b", "\\breels?\\b", "\\binstagram\\b"]),
   ("slack",
    ["\\bslack\\b", "#[a-z0-9_-]+", "\\bthread\\b", "\\breply in thread\\b",
     "\\bedited\\b.*\\bago\\b"]),
   ("discord",
    ["\\bdiscord\\b", "#[a-z0-9_-]+", "\\bserver\\b.*\\bmembers?\\b",
     "\\bonline\\b.*\\bmembers?\\b"]),
   ("whatsapp",
    ["\\bwhatsapp\\b", "\\bdelivered\\b", "\\bread\\b.*\\breceipts?\\b",
     "\\blast seen\\b"]),
   ("messages",
    ["\\bimessage\\b", "\\bdelivered\\b", "\\bread\\b",
     "\\btoday\\b.*\\d\x7b1,2\x7d:\\d\x7b2\x7d"]),
   ("email",
    ["\\bfrom:\\b", "\\bto:\\b", "\\bsubject:\\b", "\\binbox\\b",
     "\\bsent\\b.*\\bmail\\b", "\\breply\\b.*\\bforward\\b"]),
   ("terminal",
    ["\\$\\s+\\w+", "^\\s*\\w+@\\w+:", "\\bcommand not found\\b",
     "\\bexit\\b.*\\bcode\\b"]),
   ("vscode",
    ["\\bvs\\s*code\\b", "\\bextensions?\\b", "\\bproblems?\\b.*\\boutput\\b",
     "\\bdebug console\\b", "\\bterminal\\b.*\\boutput\\b"]),
   ("browser",
    ["https?://", "\\bsearch\\b.*\\bgoogle\\b", "\\bbookmarks?\\b",
     "\\btabs?\\b.*\\bwindow\\b", "\\bprivate\\b.*\\bbrowsing\\b"]),
   ("finder",
    ["\\bfinder\\b", "\\bdesktop\\b", "\\bdocuments?\\b", "\\bdownloads?\\b",
     "\\bapplications?\\b", "\\bitems?\\b.*\\bavailable\\b"])]

def CONTENT_PATTERNS : List (String × List String) :=
  [("code",
    ["\\bdef\\s+\\w+\\s*\\(", "\\bfunction\\s+\\w+\\s*\\(", "\\bclass\\s+\\w+",
     "\\bimport\\s+\\w+", "\\bfrom\\s+\\w+\\s+import\\b", "\\bconst\\s+\\w+\\s*=",
     "\\blet\\s+\\w+\\s*=", "\\bvar\\s+\\w+\\s*=", "=>\\s*\\\x7b",
     "\\breturn\\s+", "```"]),
   ("receipt",
    ["\\$\\d+\\.\\d\x7b2\x7d", "\\btotal\\b", "\\bsubtotal\\b", "\\btax\\b",
     "\\breceipt\\b", "\\border\\b.*\\b#?\\d+", "\\bpayment\\b",
     "\\bcard\\b.*\\b\\d\x7b4\x7d\\b"]),
   ("conversation",
    ["\\d\x7b1,2\x7d:\\d\x7b2\x7d\\s*(am|pm)?", "\\bsent\\b", "\\bdelivered\\b",
     "\\bread\\b", "\\btyping\\b", "\\bonline\\b"]),
   ("error_message",
    ["\\berror\\b", "\\bfailed\\b", "\\bexception\\b", "\\bwarning\\b",
     "\\bcritical\\b", "\\btraceback\\b", "\\bstack\\s*trace\\b"]),
   ("article",
    ["\\bread\\s*more\\b", "\\bshare\\b", "\\bpublished\\b", "\\bauthor\\b",
     "\\bmin\\s*read\\b", "\\bcomments?\\s*\\(\\d+\\)"]),
   ("settings",
    ["\\bsettings?\\b", "\\bpreferences?\\b", "\\boptions?\\b", "\\bconfigure\\b",
     "\\benable\\b", "\\bdisable\\b", "\\btoggle\\b"]),
   ("dashboard",
    ["\\bdashboard\\b", "\\banalytics?\\b", "\\bmetrics?\\b", "\\bstatistics?\\b",
     "\\boverview\\b", "\\d+%"]),
   ("form",
    ["\\bsubmit\\b", "\\bcancel\\b", "\\brequired\\b", "\\benter\\s+your\\b",
     "\\bpassword\\b", "\\bemail\\b.*\\baddress\\b"]),
   ("social_post",
    ["\\blikes?\\b", "\\bcomments?\\b", "\\bshares?\\b", "\\bretweets?\\b",
     "\\bfollowers?\\b"])]

/-! ## Heuristic classifiers (src/backends/ocr.py) -/

/-- Sum of `re.findall` match counts of a category's patterns in a text:
the inner loop of `classify_source_app` / `classify_content_type`. -/
def categoryScore (countMatches : String → String → ℕ)
    (patterns : List String) (text_lower : String) : ℕ :=
  patterns.foldl (fun score pattern => score + countMatches pattern text_lower) 0

/-- The `scores` dict: categories with positive score, in table
(= dict insertion) order. -/
def positiveScores (countMatches : String → String → ℕ)
    (table : List (String × List String)) (text_lower : String) :
    List (String × ℕ) :=
  table.foldl
    (fun scores entry =>
      if 0 < categoryScore countMatches entry.2 text_lower then
        scores ++ [(entry.1, categoryScore countMatches entry.2 text_lower)]
      else scores)
    []

/-- Python's `max(scores, key=scores.get)`: the first key attaining the
maximal value, in insertion order.  Returns `none` for the empty dict. -/
def maxBySnd : List (String × ℕ) → Option (String × ℕ)
  | [] => none
  | x :: xs => some (xs.foldl (fun best y => if best.2 < y.2 then y else best) x)

/-- Embeds `classify_source_app` (src/backends/ocr.py lines 256–274). -/
def classify_source_app (countMatches : String → String → ℕ)
    (text : String) : String × ℚ :=
  match maxBySnd (positiveScores countMatches APP_PATTERNS (toLowerStr text)) with
  | none => ("unknown", 3/10)
  | some best => (best.1, round2 (min ((best.2 : ℚ) / 5) 1))

/-- Embeds `classify_content_type` (src/backends/ocr.py lines 277–299). -/
def classify_content_type (countMatches : String → String → ℕ)
    (text : String) : String × ℚ :=
  match maxBySnd (positiveScores countMatches CONTENT_PATTERNS (toLowerStr text)) with
  | none =>
    if text.length < 50 then ("photo", 3/10)
    else if 500 < text.length then ("article", 2/5)
    else ("unknown", 3/10)
  | some best => (best.1, round2 (min ((best.2 : ℚ) / 5) 1))

/-! ## Language detection (src/backends/ocr.py, detect_language) -/

/-- Does the text contain a character in the inclusive code-point range? -/
def containsRange (text : String) (lo hi : ℕ) : Bool :=
  text.toList.any (fun c => decide (lo ≤ c.toNat ∧ c.toNat ≤ hi))

/-- Does the text contain one of the listed characters?  Each character class
below lists both cases, since the source compiles with `re.IGNORECASE`. -/
def containsAnyChar (text : String) (cs : List Char) : Bool :=
  text.toList.any (fun c => decide (c ∈ cs))

/-- The class `[áéíóúñ¿¡]` with IGNORECASE. -/
def spanishChars : List Char :=
  ['á', 'é', 'í', 'ó', 'ú', 'ñ', '¿', '¡', 'Á', 'É', 'Í', 'Ó', 'Ú', 'Ñ']

/-- The class `[àâçéèêëïîôùûü]` with IGNORECASE. -/
def frenchChars : List Char :=
  ['à', 'â', 'ç', 'é', 'è', 'ê', 'ë', 'ï', 'î', 'ô', 'ù', 'û', 'ü',
   'À', 'Â', 'Ç', 'É', 'È', 'Ê', 'Ë', 'Ï', 'Î', 'Ô', 'Ù', 'Û', 'Ü']

/-- The class `[äöüß]` with IGNORECASE. -/
def germanChars : List Char :=
  ['ä', 'ö', 'ü', 'ß', 'Ä', 'Ö', 'Ü', 'ẞ']

/-- The class `[ïëéèüáó]` with IGNORECASE. -/
def dutchChars : List Char :=
  ['ï', 'ë', 'é', 'è', 'ü', 'á', 'ó', 'Ï', 'Ë', 'É', 'È', 'Ü', 'Á', 'Ó']

/-- Embeds `detect_language` (src/backends/ocr.py lines 302–322). -/
def detect_language (text : String) : String :=
  if text = "" then "unknown"
  else if containsRange text 0x4e00 0x9fff then "zh"
  else if containsRange text 0x3040 0x309f || containsRange text 0x30a0 0x30ff then "ja"
  else if containsRange text 0xac00 0xd7af then "ko"
  else if containsAnyChar text spanishChars then "es"
  else if containsAnyChar text frenchChars then "fr"
  else if containsAnyChar text germanChars then "de"
  else if containsAnyChar text dutchChars then "nl"
  else "en"

/-! ## Sentiment, mentions, topics, description (src/backends/ocr.py) -/

def positiveWords : List String :=
  ["great", "awesome", "love", "excellent", "amazing", "good", "happy",
   "thanks", "beautiful", "perfect"]

def negativeWords : List String :=
  ["error", "failed", "bad", "terrible", "awful", "hate", "angry", "sad",
   "broken", "wrong", "issue", "problem"]

/-- Embeds `detect_sentiment`: count whole-word occurrences of the two keyword
lists in the lowercased text. -/
def detect_sentiment (text : String) : String :=
  let ws := wordRuns (toLowerStr text).toList
  let positive := (ws.filter (fun w => decide (w ∈ positiveWords))).length
  let negative := (ws.filter (fun w => decide (w ∈ negativeWords))).length
  if negative < positive then "positive"
  else if positive < negative then "negative"
  else if 0 < positive ∧ 0 < negative then "mixed"
  else "neutral"

/-- Embeds `extract_people`: `re.findall(r"@(\w+)", text)`, deduplicated
(`list(set(...))`), capped at 10. -/
def extract_people (text : String) : List String :=
  (scanTagged '@' text.toList).dedup.take 10

def topic_keywords : List String :=
  ["finance", "tech", "programming", "design", "music", "travel", "food",
   "sports", "news", "gaming", "ai", "crypto", "startup", "health"]

/-- Embeds `extract_topics`: app and content labels (when not "unknown"), up to 3
hashtag bodies, keyword substrings of the lowercased text; deduplicated
(`list(set(...))`), capped at 5. -/
def extract_topics (text source_app content_type : String) : List String :=
  let topics :=
    (if source_app ≠ "unknown" then [source_app] else []) ++
    (if content_type ≠ "unknown" then [content_type] else []) ++
    (scanTagged '#' text.toList).take 3 ++
    topic_keywords.filter (fun keyword => containsSub (toLowerStr text).toList keyword.toList)
  topics.dedup.take 5

/-- Embeds `generate_description`.  `str.title()` is modelled by `String.capitalize`
(the app labels it is applied to are single lowercase words). -/
def generate_description (text source_app content_type : String)
    (has_text : Bool) : String :=
  if !has_text then
    "Screenshot from " ++ source_app ++ ", appears to be " ++ content_type ++
      " content with no readable text."
  else
    let sentences := text.split (fun c => c == '.' || c == '!' || c == '?' || c == '\n')
    let preview :=
      match (sentences.map String.trim).find? (fun s => decide (20 < s.length)) with
      | some s => s.take 100
      | none => ""
    if preview ≠ "" then
      source_app.capitalize ++ " " ++ content_type ++ ": " ++ preview ++ "..."
    else
      "Screenshot from " ++ source_app ++ " showing " ++ content_type ++ " content."

/-! ## Path helpers (pathlib) -/

/-- The final path component (`Path.name`). -/
def nameOf (path : String) : String :=
  (((splitOnChar '/' path.toList).getLastD []).asString)

/-- Index of the last `'.'` in a character list, if any. -/
def lastDotIdx (cs : List Char) : Option ℕ :=
  ((List.range cs.length).filter (fun i => decide (cs.getD i ' ' = '.'))).getLast?

/-- Model of `Path.suffix` of a file name: the extension from the last dot, empty when
the dot is absent, leading, or trailing (pathlib's rule). -/
def suffixOf (name : String) : String :=
  let cs := name.toList
  match lastDotIdx cs with
  | some i => if 0 < i ∧ i < cs.length - 1 then (cs.drop i).asString else ""
  | none => ""

/-! ## Analysis payloads and results (the dicts produced by the backends) -/

/-- The successful analysis dict assembled by the OCR backend. -/
structure AnalysisFields where
  source_app : String
  content_type : String
  has_text : Bool
  primary_text : Option String
  people_mentioned : List String
  topics : List String
  language : String
  sentiment : String
  description : String
  confidence : ℚ
  image_width : ℕ
  image_height : ℕ
deriving DecidableEq, Repr

/-- An item result: either the full analysis dict or the
`{"error": str(e)}` dict produced by the item-boundary handler. -/
inductive AnalysisResult where
  | ok (fields : AnalysisFields)
  | err (msg : String)
deriving DecidableEq, Repr

/-! ## OCR backend pipeline (src/backends/ocr.py)

The two external fallible operations — `prepare_image_for_ocr` (image
loading/resizing) and `reader.readtext` (the OCR engine) — are parameters
returning `Except String`; an `Except.error e` models a raised exception
whose `str(e)` is `e`.  `countMatches` models `re.findall` counting as
above.  `readtext` yields EasyOCR items `(bbox, text, conf)`; the pipeline
uses `result[1]`, the text fragment. -/

structure OCRExt where
  countMatches : String → String → ℕ
  prepare_image_for_ocr : String → Except String (List ℕ × ℕ × ℕ × Bool)
  readtext : List ℕ → Except String (List (List (ℕ × ℕ) × String × ℚ))

/-- The body of the `try:` block shared verbatim by `OCRBackend.analyze`
(lines 456–496) and `analyze_image_standalone` (lines 539–577). -/
def analyzePipeline (ext : OCRExt) (path : String) :
    Except String AnalysisFields :=
  match ext.prepare_image_for_ocr path with
  | .error e => .error e
  | .ok (image_bytes, orig_width, orig_height, _was_resized) =>
    match ext.readtext image_bytes with
    | .error e => .error e
    | .ok results =>
      let text_parts := results.map (fun r => r.2.1)
      let full_text := String.intercalate " " text_parts
      let has_text := 0 < full_text.trim.length
      let app := classify_source_app ext.countMatches full_text
      let ctype := classify_content_type ext.countMatches full_text
      let language := detect_language full_text
      let sentiment := detect_sentiment full_text
      let people := extract_people full_text
      let topics := extract_topics full_text app.1 ctype.1
      let description := generate_description full_text app.1 ctype.1 has_text
      let confidence := round2 ((app.2 + ctype.2) / 2)
      .ok { source_app := app.1
            content_type := ctype.1
            has_text := has_text
            primary_text := if full_text = "" then none else some (full_text.take 500)
            people_mentioned := people
            topics := topics
            language := language
            sentiment := sentiment
            description := description
            confidence := confidence
            image_width := orig_width
            image_height := orig_height }

/-- Embeds `OCRBackend.analyze` (src/backends/ocr.py lines 452–501): the pipeline
wrapped in `try/except`, the handler returning `{"error": str(e)}`. -/
def OCRBackend_analyze (ext : OCRExt) (path : String) : AnalysisResult :=
  match analyzePipeline ext path with
  | .ok fields => .ok fields
  | .error e => .err e

/-- Embeds `analyze_image_standalone` (src/backends/ocr.py lines 519–582): the
per-worker function; takes the `(path_str, use_gpu, verbose)` work item and
returns `(path_str, result_dict)`. -/
def analyze_image_standalone (ext : OCRExt) (args : String × Bool × Bool) :
    String × AnalysisResult :=
  match analyzePipeline ext args.1 with
  | .ok fields => (args.1, .ok fields)
  | .error e => (args.1, .err e)

/-! ## The screenshots table as records (src/analyzer.py)

A row of the `screenshots` table.  `people_mentioned`, `topics` and
`raw_response` are stored JSON-encoded as TEXT in SQLite; they are modelled
as the values they encode.  Integer-encoded booleans keep their 0/1
encoding.  NULL is `Option.none`. -/

/-- The analysis dict as consumed by `save_result` via `.get(...)`: every
field optional (negative `.get` yields `None`), boolean fields read for
truthiness. -/
structure Analysis where
  source_app : Option String := none
  content_type : Option String := none
  has_text : Bool := false
  primary_text : Option String := none
  people_mentioned : List String := []
  topics : List String := []
  language : Option String := none
  sentiment : Option String := none
  description : Option String := none
  confidence : Option ℚ := none
  image_width : Option ℕ := none
  image_height : Option ℕ := none
  error : Option String := none
  has_people : Bool := false
deriving DecidableEq, Repr

structure SRow where
  filepath : String
  filename : String
  file_size : ℕ
  file_modified : String
  analyzed_at : String
  source_app : Option String
  content_type : Option String
  has_text : ℕ
  primary_text : Option String
  people_mentioned : List String
  topics : List String
  language : Option String
  sentiment : Option String
  description : Option String
  confidence : Option ℚ
  image_width : Option ℕ
  image_height : Option ℕ
  backend : String
  raw_response : Analysis
  error : Option String
  has_people : ℕ
deriving DecidableEq, Repr

/-- The row `save_result` inserts.  `stat_size` / `stat_mtime` are the
`filepath.stat()` results and `now` is `datetime.now().isoformat()`: inputs
from the filesystem and clock. -/
def mkRow (filepath : String) (stat_size : ℕ) (stat_mtime now : String)
    (analysis : Analysis) (backend : String) : SRow :=
  { filepath := filepath
    filename := nameOf filepath
    file_size := stat_size
    file_modified := stat_mtime
    analyzed_at := now
    source_app := analysis.source_app
    content_type := analysis.content_type
    has_text := if analysis.has_text then 1 else 0
    primary_text := analysis.primary_text
    people_mentioned := analysis.people_mentioned
    topics := analysis.topics
    language := analysis.language
    sentiment := analysis.sentiment
    description := analysis.description
    confidence := analysis.confidence
    image_width := analysis.image_width
    image_height := analysis.image_height
    backend := backend
    raw_response := analysis
    error := analysis.error
    has_people := if analysis.has_people then 1 else 0 }

/-- Model of `INSERT OR REPLACE` under the UNIQUE constraint on `filepath`: any
existing row with the same filepath is deleted and the new row inserted. -/
def upsertRow (tbl : List SRow) (row : SRow) : List SRow :=
  tbl.filter (fun q => decide (q.filepath ≠ row.filepath)) ++ [row]

/-- Embeds `save_result` (src/analyzer.py lines 145–181). -/
def save_result (tbl : List SRow) (filepath : String) (stat_size : ℕ)
    (stat_mtime now : String) (analysis : Analysis) (backend : String) :
    List SRow :=
  upsertRow tbl (mkRow filepath stat_size stat_mtime now analysis backend)

/-- Embeds `get_already_analyzed` (src/analyzer.py lines 237–240):
`SELECT filepath FROM screenshots WHERE error IS NULL`, collected into a
set (modelled as a deduplicated list). -/
def get_already_analyzed (tbl : List SRow) : List String :=
  ((tbl.filter (fun r => decide (r.error = none))).map (fun r => r.filepath)).dedup

/-- One iteration of the `cleanup_deleted_files` loop for path `p`:
nothing if the backing file exists; otherwise delete the row
(`remove_from_db = true`) or set its error to the deletion sentinel, and
bump the counter. -/
def cleanupStep (fsExists : String → Bool) (remove_from_db : Bool)
    (st : List SRow × ℕ) (p : String) : List SRow × ℕ :=
  if fsExists p then st
  else if remove_from_db then
    (st.1.filter (fun r => decide (r.filepath ≠ p)), st.2 + 1)
  else
    (st.1.map (fun r =>
       if r.filepath = p then { r with error := some ("File deleted: " ++ p) }
       else r),
     st.2 + 1)

/-- Embeds `cleanup_deleted_files` (src/analyzer.py lines 243–285).  `fsExists`
models `Path(...).exists()`.  The set `db_paths` of non-errored filepaths is
computed first (modelled as a deduplicated list), then each path missing on
disk is removed or marked.  Returns the updated table and the count. -/
def cleanup_deleted_files (fsExists : String → Bool) (tbl : List SRow)
    (remove_from_db : Bool) : List SRow × ℕ :=
  let db_paths :=
    ((tbl.filter (fun r => decide (r.error = none))).map (fun r => r.filepath)).dedup
  db_paths.foldl (cleanupStep fsExists remove_from_db) (tbl, 0)

/-! ## The screenshots table at schema level (src/analyzer.py, init_db)

For the migration claim the table is modelled with its column list explicit;
a row is an association list from column name to a TEXT-encoded value, and a
column absent from a row reads as NULL (`List.lookup _ _ = none`). -/

structure SchemaTable where
  cols : List String
  rows : List (List (String × String))
deriving DecidableEq, Repr

/-- The columns of the `CREATE TABLE` statement, in order. -/
def schemaCols : List String :=
  ["id", "filepath", "filename", "file_size", "file_modified", "analyzed_at",
   "source_app", "content_type", "has_text", "primary_text",
   "people_mentioned", "topics", "language", "sentiment", "description",
   "confidence", "image_width", "image_height", "backend", "raw_response",
   "error", "has_people"]

/-- Model of `ALTER TABLE screenshots ADD COLUMN c`: appends the column; existing
rows are untouched, so the new column reads NULL on them. -/
def addColumn (t : SchemaTable) (c : String) : SchemaTable :=
  { cols := t.cols ++ [c], rows := t.rows }

/-- Embeds `init_db` (src/analyzer.py lines 84–142) at schema level.  `db = none`
models a fresh database file: `CREATE TABLE IF NOT EXISTS` creates the full
schema.  Otherwise the existing table is kept and the four migration
columns are added when absent from the column set read by
`PRAGMA table_info` (computed once, as in the source). -/
def init_db (db : Option SchemaTable) : SchemaTable :=
  let t0 :=
    match db with
    | none => { cols := schemaCols, rows := [] }
    | some t => t
  let existing_cols := t0.cols
  let t1 := if "image_width" ∈ existing_cols then t0 else addColumn t0 "image_width"
  let t2 := if "image_height" ∈ existing_cols then t1 else addColumn t1 "image_height"
  let t3 := if "backend" ∈ existing_cols then t2 else addColumn t2 "backend"
  let t4 := if "has_people" ∈ existing_cols then t3 else addColumn t3 "has_people"
  t4

/-- Well-formed table: every row only binds columns that exist. -/
def SchemaTable.WF (t : SchemaTable) : Prop :=
  ∀ row ∈ t.rows, ∀ pr ∈ row, pr.1 ∈ t.cols

instance (t : SchemaTable) : Decidable t.WF := by
  unfold SchemaTable.WF
  infer_instance

/-! ## Image discovery (src/analyzer.py, find_images) -/

def SUPPORTED_EXTENSIONS : List String :=
  [".png", ".jpg", ".jpeg", ".gif", ".webp"]

def MIN_FILE_SIZE : ℕ := 10 * 1024

def MAX_FILE_SIZE : ℕ := 10 * 1024 * 1024

/-- A directory entry as seen by `directory.iterdir()`: its path string,
whether it is a regular file, and its `stat().st_size` — `none` models a
stat call raising `OSError`. -/
structure Entry where
  path : String
  isFile : Bool
  statSize : Option ℕ
deriving DecidableEq, Repr

/-- A scan root: whether `is_dir()` holds, and its direct children. -/
structure Dir where
  isDir : Bool
  entries : List Entry
deriving DecidableEq, Repr

/-- The body of the inner loop of `find_images`, threading
`(images, skipped_small, skipped_large)`. -/
def processEntry (skip_analyzed : List String) (filter_size : Bool)
    (acc : List String × ℕ × ℕ) (e : Entry) : List String × ℕ × ℕ :=
  if !e.isFile then acc
  else if toLowerStr (suffixOf (nameOf e.path)) ∉ SUPPORTED_EXTENSIONS then acc
  else if e.path ∈ skip_analyzed then acc
  else if filter_size then
    match e.statSize with
    | none => acc
    | some size =>
      if size < MIN_FILE_SIZE then (acc.1, acc.2.1 + 1, acc.2.2)
      else if MAX_FILE_SIZE < size then (acc.1, acc.2.1, acc.2.2 + 1)
      else (acc.1 ++ [e.path], acc.2.1, acc.2.2)
  else (acc.1 ++ [e.path], acc.2.1, acc.2.2)

/-- Embeds `find_images` (src/analyzer.py lines 184–234): flat scan of each
directory, returning `(images, skipped_small, skipped_large)`. -/
def find_images (directories : List Dir) (skip_analyzed : List String)
    (filter_size : Bool) : List String × ℕ × ℕ :=
  directories.foldl
    (fun acc d =>
      if !d.isDir then acc
      else d.entries.foldl (processEntry skip_analyzed filter_size) acc)
    ([], 0, 0)

/-- The conditions shared by all three outcomes of the size-filtered scan:
a regular file with a supported extension, not in the skip set. -/
def candidate (skip_analyzed : List String) (e : Entry) : Bool :=
  e.isFile && decide (toLowerStr (suffixOf (nameOf e.path)) ∈ SUPPORTED_EXTENSIONS)
    && decide (e.path ∉ skip_analyzed)

/-- Stat succeeded with a size inside `[MIN_FILE_SIZE, MAX_FILE_SIZE]`. -/
def sizeOk (e : Entry) : Bool :=
  match e.statSize with
  | none => false
  | some size => decide (MIN_FILE_SIZE ≤ size ∧ size ≤ MAX_FILE_SIZE)

/-- Stat succeeded with a size below `MIN_FILE_SIZE`. -/
def sizeSmall (e : Entry) : Bool :=
  match e.statSize with
  | none => false
  | some size => decide (size < MIN_FILE_SIZE)

/-- Stat succeeded with a size above `MAX_FILE_SIZE`. -/
def sizeLarge (e : Entry) : Bool :=
  match e.statSize with
  | none => false
  | some size => decide (MAX_FILE_SIZE < size)

/-- All entries of the scanned (existing) directories, in scan order. -/
def scannedEntries : List Dir → List Entry
  | [] => []
  | d :: rest => (if d.isDir then d.entries else []) ++ scannedEntries rest

/-! ## Concrete instances used to exercise the theorems -/

/-- An environment whose image-loading step raises
(`FileNotFoundError("No such file")`-style). -/
def errExt : OCRExt :=
  { countMatches := fun _ _ => 0
    prepare_image_for_ocr := fun _ => .error "No such file"
    readtext := fun _ => .ok [] }

/-- A pre-migration `screenshots` table: the column set of an older schema
revision, without `image_width`, `image_height`, `backend`, `has_people`. -/
def oldTable : SchemaTable :=
  { cols := ["id", "filepath", "filename", "file_size", "file_modified",
             "analyzed_at", "source_app", "content_type", "has_text",
             "primary_text", "people_mentioned", "topics", "language",
             "sentiment", "description", "confidence", "raw_response", "error"]
    rows := [[("filepath", "/shots/old.png"), ("source_app", "twitter")],
             [("filepath", "/shots/old2.png"), ("confidence", "0.5")]] }

/-- Three successfully analyzed rows. -/
def rowA : SRow := mkRow "/shots/a.png" 20000 "mtA" "tA" {} "ocr"

def rowB : SRow := mkRow "/shots/b.png" 30000 "mtB" "tB" {} "ocr"

def rowC : SRow := mkRow "/shots/c.png" 40000 "mtC" "tC" {} "ocr"

/-- A table of three non-errored identities. -/
def tbl3 : List SRow := [rowA, rowB, rowC]

/-- A row recorded as failed (non-null error field). -/
def rowErr : SRow :=
  mkRow "/shots/gone.png" 20000 "mtE" "tE" { error := some "corrupt image" } "ocr"

/-- A directory with three files sized 5KB, 1MB and 50MB. -/
def exampleDir : Dir :=
  { isDir := true
    entries := [{ path := "/screenshots/a.png", isFile := true, statSize := some (5 * 1024) },
                { path := "/screenshots/b.jpg", isFile := true, statSize := some (1024 * 1024) },
                { path := "/screenshots/c.png", isFile := true, statSize := some (50 * 1024 * 1024) }] }

/-! # Auxiliary lemmas -/

theorem roundHalfToEven_nonneg {q : ℚ} (h : 0 ≤ q) : 0 ≤ roundHalfToEven q := by
  unfold roundHalfToEven
  have hf : (0 : ℤ) ≤ ⌊q⌋ := Int.floor_nonneg.mpr h
  split_ifs <;> omega

theorem roundHalfToEven_le {q : ℚ} {n : ℤ} (h : q ≤ (n : ℚ)) :
    roundHalfToEven q ≤ n := by
  unfold roundHalfToEven
  have hfl : ⌊q⌋ ≤ n := by
    have h2 := Int.floor_le_floor h
    rwa [Int.floor_intCast] at h2
  have hflq : (⌊q⌋ : ℚ) ≤ q := Int.floor_le q
  split_ifs with h1 h2 h3
  · exact hfl
  · have hlt : ((⌊q⌋ : ℤ) : ℚ) < (n : ℚ) := by linarith
    have := Int.cast_lt.mp hlt
    omega
  · exact hfl
  · push_neg at h1
    have hlt : ((⌊q⌋ : ℤ) : ℚ) < (n : ℚ) := by linarith
    have := Int.cast_lt.mp hlt
    omega

theorem round2_nonneg {q : ℚ} (h : 0 ≤ q) : 0 ≤ round2 q := by
  unfold round2
  have h1 : (0 : ℤ) ≤ roundHalfToEven (q * 100) :=
    roundHalfToEven_nonneg (by positivity)
  have h2 : (0 : ℚ) ≤ (roundHalfToEven (q * 100) : ℚ) := by exact_mod_cast h1
  positivity

theorem round2_le_one {q : ℚ} (h : q ≤ 1) : round2 q ≤ 1 := by
  unfold round2
  have h1 : roundHalfToEven (q * 100) ≤ (100 : ℤ) :=
    roundHalfToEven_le (by push_cast; linarith)
  have h2 : (roundHalfToEven (q * 100) : ℚ) ≤ 100 := by exact_mod_cast h1
  linarith

theorem confidence_bounds (n : ℕ) :
    0 ≤ round2 (min ((n : ℚ) / 5) 1) ∧ round2 (min ((n : ℚ) / 5) 1) ≤ 1 := by
  constructor
  · exact round2_nonneg (le_min (by positivity) zero_le_one)
  · exact round2_le_one (min_le_right _ _)

theorem positiveScores_eq_nil_aux (cm : String → String → ℕ) (tl : String) :
    ∀ (table : List (String × List String)) (acc : List (String × ℕ)),
      (∀ e ∈ table, categoryScore cm e.2 tl = 0) →
      table.foldl
        (fun scores entry =>
          if 0 < categoryScore cm entry.2 tl then
            scores ++ [(entry.1, categoryScore cm entry.2 tl)]
          else scores)
        acc = acc := by
  intro table
  induction table with
  | nil => intro acc _; rfl
  | cons e rest ih =>
    intro acc h
    have he : categoryScore cm e.2 tl = 0 := h e (by simp)
    simp only [List.foldl_cons, he, Nat.lt_irrefl, if_false]
    exact ih acc (fun x hx => h x (List.mem_cons_of_mem _ hx))

theorem positiveScores_eq_nil {cm : String → String → ℕ}
    {table : List (String × List String)} {tl : String}
    (h : ∀ e ∈ table, categoryScore cm e.2 tl = 0) :
    positiveScores cm table tl = [] :=
  positiveScores_eq_nil_aux cm tl table [] h

/-! # Claim theorems -/

/-- C6: for every text input (and every behaviour of the external
regular-expression engine), `classify_source_app` and
`classify_content_type` each return a confidence value in the closed
interval [0, 1]. -/
theorem C6_confidence_in_unit_interval :
    ∀ (cm : String → String → ℕ) (text : String),
      (0 ≤ (classify_source_app cm text).2 ∧ (classify_source_app cm text).2 ≤ 1) ∧
      (0 ≤ (classify_content_type cm text).2 ∧ (classify_content_type cm text).2 ≤ 1) := by
  intro cm text
  constructor
  · unfold classify_source_app
    cases h : maxBySnd (positiveScores cm APP_PATTERNS (toLowerStr text)) with
    | none => norm_num
    | some best => exact confidence_bounds best.2
  · unfold classify_content_type
    cases h : maxBySnd (positiveScores cm CONTENT_PATTERNS (toLowerStr text)) with
    | none =>
      simp only []
      split_ifs <;> norm_num
    | some best => exact confidence_bounds best.2

/-- C7: on a text where no pattern category scores above zero,
`classify_source_app` returns ("unknown", 0.3) and `classify_content_type`
returns ("photo", 0.3) when the text is shorter than 50 characters,
("article", 0.4) when longer than 500, and ("unknown", 0.3) otherwise. -/
theorem C7_zero_score_fallbacks :
    ∀ (cm : String → String → ℕ) (text : String),
      (∀ e ∈ APP_PATTERNS, categoryScore cm e.2 (toLowerStr text) = 0) →
      (∀ e ∈ CONTENT_PATTERNS, categoryScore cm e.2 (toLowerStr text) = 0) →
      classify_source_app cm text = ("unknown", 3/10) ∧
      classify_content_type cm text =
        (if text.length < 50 then ("photo", 3/10)
         else if 500 < text.length then ("article", 2/5)
         else ("unknown", 3/10)) := by
  intro cm text happ hcontent
  constructor
  · unfold classify_source_app
    rw [positiveScores_eq_nil happ]
    rfl
  · unfold classify_content_type
    rw [positiveScores_eq_nil hcontent]
    rfl

/-- C7 witness: the empty text scores zero in every category, so
`classify_source_app` returns ("unknown", 0.3) and `classify_content_type`
returns ("photo", 0.3) (empty text has length 0 < 50). -/
theorem C7_zero_score_fallbacks_witness :
    classify_source_app (fun _ _ => 0) "" = ("unknown", 3/10) ∧
    classify_content_type (fun _ _ => 0) "" = ("photo", 3/10) := by
  have h := C7_zero_score_fallbacks (fun _ _ => 0) "" (by decide) (by decide)
  refine ⟨h.1, ?_⟩
  rw [h.2]
  rfl

/-- C2: any exception raised inside an item's analysis (modelled by the
pipeline returning `Except.error`) is caught at the item boundary: both
`OCRBackend.analyze` and `analyze_image_standalone` return a result whose
error field is the exception's message, and `analyze_image_standalone`
always returns a `(path, result)` pair — a failing item never propagates an
exception. -/
theorem C2_item_errors_caught :
    ∀ (ext : OCRExt) (args : String × Bool × Bool),
      (∃ r, analyze_image_standalone ext args = (args.1, r)) ∧
      (∀ e, analyzePipeline ext args.1 = .error e →
        OCRBackend_analyze ext args.1 = .err e ∧
        analyze_image_standalone ext args = (args.1, .err e)) := by
  intro ext args
  constructor
  · unfold analyze_image_standalone
    cases h : analyzePipeline ext args.1 with
    | ok fields => exact ⟨.ok fields, rfl⟩
    | error e => exact ⟨.err e, rfl⟩
  · intro e he
    unfold OCRBackend_analyze analyze_image_standalone
    rw [he]
    exact ⟨rfl, rfl⟩

/-- C2 witness: with an image loader that raises "No such file", both entry
points return the error record for that item. -/
theorem C2_item_errors_caught_witness :
    analyzePipeline errExt "/shots/gone.png" = .error "No such file" ∧
    OCRBackend_analyze errExt "/shots/gone.png" = .err "No such file" ∧
    analyze_image_standalone errExt ("/shots/gone.png", false, false) =
      ("/shots/gone.png", .err "No such file") := by
  have h := (C2_item_errors_caught errExt ("/shots/gone.png", false, false)).2
    "No such file" rfl
  exact ⟨rfl, h.1, h.2⟩

/-- C10: `detect_language` never returns "nl": every character of the Dutch
class is already matched by the Spanish or the French class, which are
checked earlier in the cascade. -/
theorem C10_dutch_unreachable :
    ∀ text : String, detect_language text ≠ "nl" := by
  intro text
  unfold detect_language
  split_ifs with h0 h1 h2 h3 h4 h5 h6 h7
  · decide
  · decide
  · decide
  · decide
  · decide
  · decide
  · decide
  · exfalso
    unfold containsAnyChar at h4 h5 h7
    rw [List.any_eq_true] at h7
    obtain ⟨c, hcmem, hc⟩ := h7
    rw [decide_eq_true_eq] at hc
    have hor : c ∈ spanishChars ∨ c ∈ frenchChars := by
      fin_cases hc <;> decide
    rcases hor with h | h
    · exact absurd (List.any_eq_true.mpr ⟨c, hcmem, by simp [h]⟩) h4
    · exact absurd (List.any_eq_true.mpr ⟨c, hcmem, by simp [h]⟩) h5
  · decide

theorem lookup_eq_none_of_keys {c : String} :
    ∀ {row : List (String × String)}, (∀ pr ∈ row, pr.1 ≠ c) →
      List.lookup c row = none := by
  intro row
  induction row with
  | nil => intro _; rfl
  | cons pr rest ih =>
    obtain ⟨k, v⟩ := pr
    intro h
    have hne : k ≠ c := h (k, v) (by simp)
    have hbeq : (c == k) = false := beq_eq_false_iff_ne.mpr (fun hh => hne hh.symm)
    simp only [List.lookup, hbeq]
    exact ih (fun x hx => h x (List.mem_cons_of_mem _ hx))

theorem init_db_some_rows (t : SchemaTable) : (init_db (some t)).rows = t.rows := by
  simp only [init_db, addColumn]
  split_ifs <;> rfl

theorem init_db_of_mem {t : SchemaTable}
    (h1 : "image_width" ∈ t.cols) (h2 : "image_height" ∈ t.cols)
    (h3 : "backend" ∈ t.cols) (h4 : "has_people" ∈ t.cols) :
    init_db (some t) = t := by
  simp only [init_db]
  rw [if_pos h1, if_pos h2, if_pos h3, if_pos h4]

theorem init_db_cols_monotone {t : SchemaTable} {c : String} (h : c ∈ t.cols) :
    c ∈ (init_db (some t)).cols := by
  simp only [init_db, addColumn]
  split_ifs <;> simp_all [List.mem_append]

theorem init_db_cols_new (t : SchemaTable) :
    "image_width" ∈ (init_db (some t)).cols ∧
    "image_height" ∈ (init_db (some t)).cols ∧
    "backend" ∈ (init_db (some t)).cols ∧
    "has_people" ∈ (init_db (some t)).cols := by
  simp only [init_db, addColumn]
  split_ifs <;> simp_all [List.mem_append]

/-! # Claim theorems (continued) -/

/-- C1: upserting a record for the same file identity twice, with two
different classification payloads, leaves exactly one row for that identity,
and that row carries the second call's values in full (last-write-wins, no
field-level merge). -/
theorem C1_upsert_last_write_wins :
    ∀ (tbl : List SRow) (fp : String)
      (s1 : ℕ) (m1 n1 : String) (a1 : Analysis) (b1 : String)
      (s2 : ℕ) (m2 n2 : String) (a2 : Analysis) (b2 : String),
      a1 ≠ a2 →
      (save_result (save_result tbl fp s1 m1 n1 a1 b1) fp s2 m2 n2 a2 b2).filter
          (fun r => decide (r.filepath = fp)) =
        [mkRow fp s2 m2 n2 a2 b2] := by
  intro tbl fp s1 m1 n1 a1 b1 s2 m2 n2 a2 b2 _
  unfold save_result upsertRow
  rw [List.filter_append, List.filter_filter]
  have h1 : List.filter
      (fun a => decide (a.filepath = fp) &&
        decide (a.filepath ≠ (mkRow fp s2 m2 n2 a2 b2).filepath))
      (List.filter
        (fun q => decide (q.filepath ≠ (mkRow fp s1 m1 n1 a1 b1).filepath)) tbl ++
        [mkRow fp s1 m1 n1 a1 b1]) = [] := by
    rw [List.filter_eq_nil_iff]
    intro a _
    by_cases h : a.filepath = fp
    · simp [mkRow, h]
    · simp [h]
  rw [h1]
  simp [mkRow]

/-- C1 witness: two concrete upserts of the same identity with different
payloads. -/
theorem C1_upsert_last_write_wins_witness :
    ({ source_app := some "twitter" } : Analysis) ≠
      ({ source_app := some "slack" } : Analysis) ∧
    (save_result
        (save_result [] "/shots/x.png" 20000 "mt1" "t1"
          { source_app := some "twitter" } "ocr")
        "/shots/x.png" 20000 "mt2" "t2" { source_app := some "slack" } "ocr").filter
        (fun r => decide (r.filepath = "/shots/x.png")) =
      [mkRow "/shots/x.png" 20000 "mt2" "t2" { source_app := some "slack" } "ocr"] :=
  ⟨by decide,
   C1_upsert_last_write_wins [] "/shots/x.png" 20000 "mt1" "t1"
     { source_app := some "twitter" } "ocr" 20000 "mt2" "t2"
     { source_app := some "slack" } "ocr" (by decide)⟩

/-- C9: `extract_people` returns a duplicate-free list of at most 10 of the
@handle bodies occurring in the text (so 20 distinct handles still give at
most 10), returning exactly ["user"] on "@user said @user is great"; and
`extract_topics` always returns a duplicate-free list of at most 5
elements. -/
theorem C9_extract_dedup_caps :
    (∀ text : String,
      (extract_people text).Nodup ∧ (extract_people text).length ≤ 10 ∧
      ∀ x ∈ extract_people text, x ∈ scanTagged '@' text.toList) ∧
    extract_people "@user said @user is great" = ["user"] ∧
    (∀ text app ctype : String,
      (extract_topics text app ctype).Nodup ∧
      (extract_topics text app ctype).length ≤ 5) := by
  refine ⟨?_, ?_, ?_⟩
  · intro text
    refine ⟨?_, ?_, ?_⟩
    · exact (List.take_sublist _ _).nodup (List.nodup_dedup _)
    · exact List.length_take_le _ _
    · intro x hx
      exact List.mem_dedup.mp (List.take_subset _ _ hx)
  · decide
  · intro text app ctype
    exact ⟨(List.take_sublist _ _).nodup (List.nodup_dedup _),
           List.length_take_le _ _⟩

/-- C9 witness: the membership part of the theorem at a concrete input. -/
theorem C9_extract_dedup_caps_witness :
    (extract_people "@a said @b and @a").Nodup ∧
    "b" ∈ scanTagged '@' "@a said @b and @a".toList :=
  ⟨(C9_extract_dedup_caps.1 "@a said @b and @a").1,
   (C9_extract_dedup_caps.1 "@a said @b and @a").2.2 "b" (by decide)⟩

/-- C5: opening a store whose screenshots table misses later-revision
columns adds them (`image_width`, `image_height`, `backend`, `has_people`),
keeps every pre-existing column and all rows unchanged (no data loss), the
added columns read NULL on pre-existing rows, and a second open changes
nothing. -/
theorem C5_schema_migration :
    ∀ t : SchemaTable, t.WF →
      ("image_width" ∈ (init_db (some t)).cols ∧
       "image_height" ∈ (init_db (some t)).cols ∧
       "backend" ∈ (init_db (some t)).cols ∧
       "has_people" ∈ (init_db (some t)).cols) ∧
      (init_db (some t)).rows = t.rows ∧
      (∀ c ∈ t.cols, c ∈ (init_db (some t)).cols) ∧
      (∀ c ∈ (["image_width", "image_height", "backend", "has_people"] : List String),
        c ∉ t.cols → ∀ row ∈ (init_db (some t)).rows, List.lookup c row = none) ∧
      init_db (some (init_db (some t))) = init_db (some t) := by
  intro t hwf
  obtain ⟨h1, h2, h3, h4⟩ := init_db_cols_new t
  refine ⟨⟨h1, h2, h3, h4⟩, init_db_some_rows t,
    fun c hc => init_db_cols_monotone hc, ?_, init_db_of_mem h1 h2 h3 h4⟩
  intro c _ hcnot row hrow
  rw [init_db_some_rows t] at hrow
  exact lookup_eq_none_of_keys
    (fun pr hpr heq => hcnot (heq ▸ hwf row hrow pr hpr))

/-- C5 witness: opening `oldTable` (an 18-column pre-migration table with
two rows) adds `has_people`, keeps the rows, reads NULL for the new column
on them, and is idempotent. -/
theorem C5_schema_migration_witness :
    oldTable.WF ∧
    "has_people" ∈ (init_db (some oldTable)).cols ∧
    (init_db (some oldTable)).rows = oldTable.rows ∧
    (∀ row ∈ (init_db (some oldTable)).rows, List.lookup "has_people" row = none) ∧
    init_db (some (init_db (some oldTable))) = init_db (some oldTable) := by
  have h := C5_schema_migration oldTable (by decide)
  exact ⟨by decide, h.1.2.2.2, h.2.1,
    fun row hr => h.2.2.2.1 "has_people" (by decide) (by decide) row hr,
    h.2.2.2.2⟩

/-! ## Characterizing the reconciliation fold -/

theorem cleanupStep_snd (fs : String → Bool) (rm : Bool) (st : List SRow × ℕ)
    (p : String) :
    (cleanupStep fs rm st p).2 = if fs p then st.2 else st.2 + 1 := by
  unfold cleanupStep
  split_ifs <;> rfl

theorem cleanup_foldl_snd (fs : String → Bool) (rm : Bool) :
    ∀ (paths : List String) (st : List SRow × ℕ),
      (paths.foldl (cleanupStep fs rm) st).2 =
        st.2 + (paths.filter (fun p => !fs p)).length := by
  intro paths
  induction paths with
  | nil => intro st; simp
  | cons p rest ih =>
    intro st
    rw [List.foldl_cons, ih, List.filter_cons, cleanupStep_snd]
    cases h : fs p
    · simp
      omega
    · simp

theorem cleanup_foldl_id (fs : String → Bool) (rm : Bool) :
    ∀ (paths : List String), (∀ p ∈ paths, fs p = true) →
      ∀ st, paths.foldl (cleanupStep fs rm) st = st := by
  intro paths
  induction paths with
  | nil => intro _ st; rfl
  | cons p rest ih =>
    intro h st
    rw [List.foldl_cons]
    have hstep : cleanupStep fs rm st p = st := by
      unfold cleanupStep
      rw [if_pos (h p (by simp))]
    rw [hstep]
    exact ih (fun x hx => h x (List.mem_cons_of_mem _ hx)) st

theorem cleanup_foldl_fst_remove (fs : String → Bool) :
    ∀ (paths : List String) (tbl : List SRow) (c : ℕ),
      (paths.foldl (cleanupStep fs true) (tbl, c)).1 =
        tbl.filter (fun r => decide (r.filepath ∉ paths.filter (fun p => !fs p))) := by
  intro paths
  induction paths with
  | nil => intro tbl c; simp
  | cons p rest ih =>
    intro tbl c
    rw [List.foldl_cons, List.filter_cons]
    by_cases h : fs p
    · have hstep : cleanupStep fs true (tbl, c) p = (tbl, c) := by
        unfold cleanupStep
        rw [if_pos h]
      rw [hstep, ih]
      simp [h]
    · have hstep : cleanupStep fs true (tbl, c) p =
          (tbl.filter (fun r => decide (r.filepath ≠ p)), c + 1) := by
        unfold cleanupStep
        rw [if_neg (by simp [h])]
        rfl
      rw [hstep, ih, List.filter_filter]
      have hb : (!fs p) = true := by simp [h]
      rw [if_pos hb]
      apply List.filter_congr
      intro r _
      by_cases hr : r.filepath = p <;>
        by_cases hr2 : r.filepath ∈ rest.filter (fun q => !fs q) <;>
          simp_all

theorem cleanup_foldl_fst_mark (fs : String → Bool) :
    ∀ (paths : List String), paths.Nodup →
      ∀ (tbl : List SRow) (c : ℕ),
        (paths.foldl (cleanupStep fs false) (tbl, c)).1 =
          tbl.map (fun r =>
            if r.filepath ∈ paths.filter (fun p => !fs p) then
              { r with error := some ("File deleted: " ++ r.filepath) }
            else r) := by
  intro paths
  induction paths with
  | nil => intro _ tbl c; simp
  | cons p rest ih =>
    intro hnd tbl c
    obtain ⟨hp, hrest⟩ := List.nodup_cons.mp hnd
    rw [List.foldl_cons, List.filter_cons]
    by_cases h : fs p
    · have hstep : cleanupStep fs false (tbl, c) p = (tbl, c) := by
        unfold cleanupStep
        rw [if_pos h]
      rw [hstep, ih hrest]
      simp [h]
    · have hstep : cleanupStep fs false (tbl, c) p =
          (tbl.map (fun r =>
            if r.filepath = p then { r with error := some ("File deleted: " ++ p) }
            else r), c + 1) := by
        unfold cleanupStep
        rw [if_neg (by simp [h])]
        rfl
      rw [hstep, ih hrest, List.map_map]
      have hb : (!fs p) = true := by simp [h]
      rw [if_pos hb]
      apply List.map_congr_left
      intro r _
      have hpm : p ∉ rest.filter (fun q => !fs q) :=
        fun hmem => hp (List.mem_of_mem_filter hmem)
      by_cases hr : r.filepath = p
      · simp only [Function.comp_apply, if_pos hr]
        rw [if_neg (by simpa [hr] using hpm), if_pos (by simp [hr]), hr]
      · simp only [Function.comp_apply, if_neg hr]
        by_cases hr2 : r.filepath ∈ rest.filter (fun q => !fs q)
        · rw [if_pos hr2, if_pos (List.mem_cons_of_mem _ hr2)]
        · rw [if_neg hr2, if_neg (by simp [hr, hr2])]

/-- Membership in the non-errored filepath set of a table whose filepaths
are unique (the UNIQUE constraint). -/
theorem mem_db_paths_iff {tbl : List SRow}
    (hnd : (tbl.map (fun r => r.filepath)).Nodup) {r : SRow} (hr : r ∈ tbl) :
    r.filepath ∈
        ((tbl.filter (fun q => decide (q.error = none))).map (fun q => q.filepath)).dedup ↔
      r.error = none := by
  rw [List.mem_dedup, List.mem_map]
  constructor
  · rintro ⟨q, hq, heq⟩
    rw [List.mem_filter, decide_eq_true_eq] at hq
    have : q = r := List.inj_on_of_nodup_map hnd hq.1 hr heq
    rw [← this]
    exact hq.2
  · intro h
    exact ⟨r, List.mem_filter.mpr ⟨hr, by simp [h]⟩, rfl⟩

/-- C3: under the UNIQUE filepath constraint, deletion reconciliation visits
exactly the stored identities with NULL error; it counts exactly the
non-errored rows whose backing file is missing (in both modes), with
`remove_from_db = true` it deletes exactly those rows, with
`remove_from_db = false` it sets exactly their error fields to the
"File deleted: ..." sentinel, and every non-errored row whose backing file
exists is kept unchanged (its error stays NULL). -/
theorem C3_reconcile_deletions :
    ∀ (fs : String → Bool) (tbl : List SRow),
      (tbl.map (fun r => r.filepath)).Nodup →
      ((cleanup_deleted_files fs tbl true).2 =
        (tbl.filter (fun r => decide (r.error = none) && !fs r.filepath)).length) ∧
      ((cleanup_deleted_files fs tbl false).2 =
        (tbl.filter (fun r => decide (r.error = none) && !fs r.filepath)).length) ∧
      ((cleanup_deleted_files fs tbl true).1 =
        tbl.filter (fun r => !(decide (r.error = none) && !fs r.filepath))) ∧
      ((cleanup_deleted_files fs tbl false).1 =
        tbl.map (fun r =>
          if r.error = none ∧ fs r.filepath = false then
            { r with error := some ("File deleted: " ++ r.filepath) }
          else r)) ∧
      (∀ r ∈ tbl, r.error = none → fs r.filepath = true →
        r ∈ (cleanup_deleted_files fs tbl false).1) := by
  intro fs tbl hnd
  have hndmap :
      ((tbl.filter (fun r => decide (r.error = none))).map (fun r => r.filepath)).Nodup :=
    ((List.filter_sublist tbl).map _).nodup hnd
  have hdedup :
      ((tbl.filter (fun r => decide (r.error = none))).map (fun r => r.filepath)).dedup =
        (tbl.filter (fun r => decide (r.error = none))).map (fun r => r.filepath) :=
    List.dedup_eq_self.mpr hndmap
  have hcount : ∀ rm, (cleanup_deleted_files fs tbl rm).2 =
      (tbl.filter (fun r => decide (r.error = none) && !fs r.filepath)).length := by
    intro rm
    simp only [cleanup_deleted_files]
    rw [cleanup_foldl_snd, hdedup, List.filter_map, List.length_map,
      List.filter_filter, Nat.zero_add]
    apply congrArg List.length
    apply List.filter_congr
    intro r _
    simp only [Function.comp_apply]
    exact Bool.and_comm _ _
  have hmark : (cleanup_deleted_files fs tbl false).1 =
      tbl.map (fun r =>
        if r.error = none ∧ fs r.filepath = false then
          { r with error := some ("File deleted: " ++ r.filepath) }
        else r) := by
    simp only [cleanup_deleted_files]
    rw [cleanup_foldl_fst_mark fs _ (List.nodup_dedup _)]
    apply List.map_congr_left
    intro r hr
    have hiff := mem_db_paths_iff hnd hr
    by_cases h1 : r.error = none <;> by_cases h2 : fs r.filepath <;>
      simp_all [List.mem_filter]
  refine ⟨hcount true, hcount false, ?_, hmark, ?_⟩
  · simp only [cleanup_deleted_files]
    rw [cleanup_foldl_fst_remove]
    apply List.filter_congr
    intro r hr
    have hiff := mem_db_paths_iff hnd hr
    by_cases h1 : r.error = none <;> by_cases h2 : fs r.filepath <;>
      simp_all [List.mem_filter]
  · intro r hr herr hfs
    rw [hmark]
    exact List.mem_map.mpr ⟨r, hr, by rw [if_neg (by simp [hfs])]⟩

/-- C3 witness: three non-errored identities, two of whose backing files
("/shots/b.png", "/shots/c.png") are missing on disk — reconciliation
returns 2 in both modes, the remove mode drops the row count by exactly 2,
and the mark mode sets exactly the two missing rows' error fields to the
deletion sentinel. -/
theorem C3_reconcile_deletions_witness :
    (tbl3.map (fun r => r.filepath)).Nodup ∧
    (cleanup_deleted_files (fun p => p == "/shots/a.png") tbl3 false).2 = 2 ∧
    (cleanup_deleted_files (fun p => p == "/shots/a.png") tbl3 true).2 = 2 ∧
    (cleanup_deleted_files (fun p => p == "/shots/a.png") tbl3 true).1.length =
      tbl3.length - 2 ∧
    (cleanup_deleted_files (fun p => p == "/shots/a.png") tbl3 false).1.map
        (fun r => r.error) =
      [none, some "File deleted: /shots/b.png", some "File deleted: /shots/c.png"] := by
  have h := C3_reconcile_deletions (fun p => p == "/shots/a.png") tbl3 (by decide)
  refine ⟨by decide, ?_, ?_, ?_, ?_⟩
  · rw [h.2.1]
    decide
  · rw [h.1]
    decide
  · rw [h.2.2.1]
    decide
  · rw [h.2.2.2.1]
    decide

/-- C4: rows with non-null error are excluded from the skip-set returned by
`get_already_analyzed` and are never touched by deletion reconciliation: if
every non-errored row's backing file exists (so only errored rows can be
missing on disk), reconciliation returns 0 and modifies no row, in either
mode. -/
theorem C4_errored_rows_excluded :
    ∀ (fs : String → Bool) (tbl : List SRow),
      (tbl.map (fun r => r.filepath)).Nodup →
      (∀ r ∈ tbl, r.error ≠ none → r.filepath ∉ get_already_analyzed tbl) ∧
      ((∀ r ∈ tbl, r.error = none → fs r.filepath = true) →
        cleanup_deleted_files fs tbl true = (tbl, 0) ∧
        cleanup_deleted_files fs tbl false = (tbl, 0)) := by
  intro fs tbl hnd
  constructor
  · intro r hr herr hmem
    unfold get_already_analyzed at hmem
    exact herr ((mem_db_paths_iff hnd hr).mp hmem)
  · intro hall
    have hpaths : ∀ p ∈
        ((tbl.filter (fun q => decide (q.error = none))).map (fun q => q.filepath)).dedup,
        fs p = true := by
      intro p hp
      rw [List.mem_dedup, List.mem_map] at hp
      obtain ⟨q, hq, rfl⟩ := hp
      rw [List.mem_filter, decide_eq_true_eq] at hq
      exact hall q hq.1 hq.2
    constructor
    · simp only [cleanup_deleted_files]
      exact cleanup_foldl_id fs true _ hpaths _
    · simp only [cleanup_deleted_files]
      exact cleanup_foldl_id fs false _ hpaths _

/-- C4 witness: a table holding a single errored row whose backing file is
missing — its filepath is not in the skip-set, and reconciliation leaves
the table unchanged with count 0. -/
theorem C4_errored_rows_excluded_witness :
    ([rowErr].map (fun r => r.filepath)).Nodup ∧
    rowErr.error ≠ none ∧
    "/shots/gone.png" ∉ get_already_analyzed [rowErr] ∧
    cleanup_deleted_files (fun _ => false) [rowErr] false = ([rowErr], 0) := by
  have h := C4_errored_rows_excluded (fun _ => false) [rowErr] (by decide)
  refine ⟨by decide, by decide, ?_, ?_⟩
  · exact h.1 rowErr (by simp) (by decide)
  · have hall : ∀ r ∈ [rowErr], r.error = none →
        (fun _ : String => false) r.filepath = true := by
      intro r hr herr
      rw [List.mem_singleton] at hr
      rw [hr] at herr
      exact absurd herr (by decide)
    exact (h.2 hall).2

/-! ## Characterizing the discovery fold -/

theorem foldl_processEntry (skip : List String) :
    ∀ (es : List Entry) (acc : List String × ℕ × ℕ),
      es.foldl (processEntry skip true) acc =
        (acc.1 ++ (es.filter (fun e => candidate skip e && sizeOk e)).map (fun e => e.path),
         acc.2.1 + (es.filter (fun e => candidate skip e && sizeSmall e)).length,
         acc.2.2 + (es.filter (fun e => candidate skip e && sizeLarge e)).length) := by
  intro es
  induction es with
  | nil => intro acc; simp
  | cons e rest ih =>
    intro acc
    rw [List.foldl_cons, List.filter_cons, List.filter_cons, List.filter_cons]
    by_cases h1 : e.isFile
    · by_cases h2 : toLowerStr (suffixOf (nameOf e.path)) ∈ SUPPORTED_EXTENSIONS
      · by_cases h3 : e.path ∈ skip
        · have hc : candidate skip e = false := by
            simp [candidate, h3]
          have hstep : processEntry skip true acc e = acc := by
            unfold processEntry
            rw [if_neg (by simp [h1]), if_neg (by simp [h2]), if_pos h3]
          rw [hstep, ih, hc]
          simp
        · have hcand : candidate skip e = true := by
            simp [candidate, h1, h2, h3]
          cases hsz : e.statSize with
          | none =>
            have hstep : processEntry skip true acc e = acc := by
              unfold processEntry
              rw [if_neg (by simp [h1]), if_neg (by simp [h2]),
                if_neg h3, if_pos rfl, hsz]
            have ho : sizeOk e = false := by simp [sizeOk, hsz]
            have hs : sizeSmall e = false := by simp [sizeSmall, hsz]
            have hl : sizeLarge e = false := by simp [sizeLarge, hsz]
            rw [hstep, ih, ho, hs, hl]
            simp [hcand]
          | some size =>
            by_cases hsmall : size < MIN_FILE_SIZE
            · have hstep : processEntry skip true acc e =
                  (acc.1, acc.2.1 + 1, acc.2.2) := by
                unfold processEntry
                rw [if_neg (by simp [h1]), if_neg (by simp [h2]),
                  if_neg h3, if_pos rfl, hsz]
                simp [hsmall]
              have ho : sizeOk e = false := by simp [sizeOk, hsz]; omega
              have hs : sizeSmall e = true := by simp [sizeSmall, hsz, hsmall]
              have hl : sizeLarge e = false := by
                simp [sizeLarge, hsz, MAX_FILE_SIZE]
                simp [MIN_FILE_SIZE] at hsmall
                omega
              rw [hstep, ih, ho, hs, hl]
              simp [hcand]
              omega
            · by_cases hlarge : MAX_FILE_SIZE < size
              · have hstep : processEntry skip true acc e =
                    (acc.1, acc.2.1, acc.2.2 + 1) := by
                  unfold processEntry
                  rw [if_neg (by simp [h1]), if_neg (by simp [h2]),
                    if_neg h3, if_pos rfl, hsz]
                  simp [hsmall, hlarge]
                have ho : sizeOk e = false := by simp [sizeOk, hsz]; omega
                have hs : sizeSmall e = false := by simp [sizeSmall, hsz, hsmall]
                have hl : sizeLarge e = true := by simp [sizeLarge, hsz, hlarge]
                rw [hstep, ih, ho, hs, hl]
                simp [hcand]
                omega
              · have hstep : processEntry skip true acc e =
                    (acc.1 ++ [e.path], acc.2.1, acc.2.2) := by
                  unfold processEntry
                  rw [if_neg (by simp [h1]), if_neg (by simp [h2]),
                    if_neg h3, if_pos rfl, hsz]
                  simp [hsmall, hlarge]
                have ho : sizeOk e = true := by
                  simp [sizeOk, hsz]
                  omega
                rw [hstep, ih, ho]
                have hs : sizeSmall e = false := by simp [sizeSmall, hsz, hsmall]
                have hl : sizeLarge e = false := by simp [sizeLarge, hsz, hlarge]
                rw [hs, hl]
                simp [hcand]
      · have hc : candidate skip e = false := by simp [candidate, h2]
        have hstep : processEntry skip true acc e = acc := by
          unfold processEntry
          rw [if_neg (by simp [h1]), if_pos (by simp [h2])]
        rw [hstep, ih, hc]
        simp
    · have hc : candidate skip e = false := by simp [candidate, h1]
      have hstep : processEntry skip true acc e = acc := by
        unfold processEntry
        rw [if_pos (by simp [h1])]
      rw [hstep, ih, hc]
      simp

theorem foldl_dirs (skip : List String) :
    ∀ (dirs : List Dir) (acc : List String × ℕ × ℕ),
      dirs.foldl
        (fun acc d =>
          if !d.isDir then acc
          else d.entries.foldl (processEntry skip true) acc) acc =
        (acc.1 ++
           ((scannedEntries dirs).filter
             (fun e => candidate skip e && sizeOk e)).map (fun e => e.path),
         acc.2.1 + ((scannedEntries dirs).filter
           (fun e => candidate skip e && sizeSmall e)).length,
         acc.2.2 + ((scannedEntries dirs).filter
           (fun e => candidate skip e && sizeLarge e)).length) := by
  intro dirs
  induction dirs with
  | nil => intro acc; simp [scannedEntries]
  | cons d rest ih =>
    intro acc
    rw [List.foldl_cons]
    by_cases hd : d.isDir
    · rw [if_neg (by simp [hd]), foldl_processEntry, ih]
      simp [scannedEntries, hd, List.filter_append, List.append_assoc,
        Nat.add_assoc]
    · rw [if_pos (by simp [hd]), ih]
      simp [scannedEntries, hd]

/-- C8: with size filtering enabled, discovery returns exactly the regular
files of the scanned directories that have a supported extension, are not
in the skip set, and whose size lies within
[MIN_FILE_SIZE, MAX_FILE_SIZE], counting the too-small ones in
skipped_small and the too-large ones in skipped_large, and silently
excluding entries whose stat fails; on a directory holding files of 5KB,
1MB and 50MB, it returns exactly the 1MB file with skipped_small = 1 and
skipped_large = 1. -/
theorem C8_find_images_size_filtering :
    (∀ (dirs : List Dir) (skip : List String),
      find_images dirs skip true =
        (((scannedEntries dirs).filter
            (fun e => candidate skip e && sizeOk e)).map (fun e => e.path),
         ((scannedEntries dirs).filter
            (fun e => candidate skip e && sizeSmall e)).length,
         ((scannedEntries dirs).filter
            (fun e => candidate skip e && sizeLarge e)).length)) ∧
    find_images [exampleDir] [] true = (["/screenshots/b.jpg"], 1, 1) := by
  constructor
  · intro dirs skip
    unfold find_images
    rw [foldl_dirs]
    simp
  · rfl

end ScreenshotAnalyzer
